import Mathlib

set_option maxHeartbeats 1000000

/-!
Shallow embedding of `src/unizipex.py` (class `UNICORNZipExport`).

Bytes are modelled as `Nat` (each value below 256 in practice; none of the
verified properties depend on the bound). A 32-bit little-endian float is
modelled by its four raw bytes, i.e. a `List Nat` of length 4: IEEE-754
decoding of a 4-byte group is a fixed bijection on bit patterns, so every
claim about counts and byte contents of decoded floats is faithfully stated
on the 4-byte groups themselves.

External library capabilities (the `zipfile`, `xml.etree` and `numpy`
dependencies) are modelled as follows:
- a ZIP archive (`ZipFile`) is an association list from entry names to entry
  bytes; `read`/`open` raise `KeyError` on a missing entry, as `zipfile` does;
- the result of `xml.etree` parsing is a `Doc` value holding the `Curve` and
  `EventCurve` elements the code consumes; `find` returning `None` followed
  by an attribute access raises `AttributeError`, as in Python;
- `np.frombuffer(b, dtype, offset)` with `count = -1` yields the 4-byte
  groups of `b` after `offset`; it raises `ValueError` when `offset` exceeds
  the buffer length or when the remaining length is not a multiple of the
  element size, as numpy does;
- reopening trimmed bytes as a nested archive (`ZipFile(BytesIO(...))`) is an
  explicit parameter `openZip`, since ZIP container parsing is an external
  capability.
-/

deriving instance DecidableEq for Except

/-- Python exceptions raised by the code paths of `unizipex.py`. -/
inductive PyErr where
  /-- `KeyError` from a ZIP entry lookup (`ZipFile.read` / `ZipFile.open`). -/
  | keyError (key : String)
  /-- A `ValueError` with a fixed message. -/
  | valueError (msg : String)
  /-- The `ValueError` raised in `_load_data` naming the missing event type. -/
  | missingEventType (t : String)
  /-- `ValueError`: too many values to unpack (tuple unpacking). -/
  | unpackMismatch
  /-- `ValueError` from `int()` on a non-integer literal. -/
  | invalidIntLiteral (s : String)
  /-- `NameError`: the given name is not defined. -/
  | nameError (n : String)
  /-- `AttributeError` (attribute access on `None`). -/
  | attributeError
  /-- `IndexError` (sequence index out of range). -/
  | indexError
  deriving DecidableEq

/-- Effectful map over a list, stopping at the first error: the semantics of a
Python list comprehension whose body may raise. -/
def listMapE (f : α → Except PyErr β) : List α → Except PyErr (List β)
  | [] => .ok []
  | a :: rest =>
    match f a with
    | .error e => .error e
    | .ok b =>
      match listMapE f rest with
      | .error e => .error e
      | .ok bs => .ok (b :: bs)

/-- Python slice `buf[:stop]` for a possibly negative `stop`. -/
def pySliceUpto (buf : List Nat) (stop : Int) : List Nat :=
  let n : Int := Int.ofNat buf.length
  let s : Int := if stop < 0 then n + stop else stop
  buf.take s.toNat

/-- Group a byte list into consecutive 4-byte chunks, one per little-endian
32-bit float; a trailing group of fewer than 4 bytes is dropped (unused: the
caller only applies this to lists whose length is a multiple of 4). -/
def chunksOf4 : List Nat → List (List Nat)
  | b0 :: b1 :: b2 :: b3 :: rest => [b0, b1, b2, b3] :: chunksOf4 rest
  | _ => []

/-- Python `str.capitalize` on the underlying characters: first character
uppercased, all following characters lowercased (ASCII scope). -/
def pyCapitalizeChars : List Char → List Char
  | [] => []
  | c :: rest => c.toUpper :: rest.map Char.toLower

/-- Python `str.capitalize`. -/
def pyCapitalize (s : String) : String := String.mk (pyCapitalizeChars s.data)

/-- Python `str.startswith`. -/
def pyStartsWith (s pre : String) : Bool := pre.data.isPrefixOf s.data

/-- Whitespace characters stripped by Python `int()` (ASCII scope). -/
def isPySpace (c : Char) : Bool :=
  c = ' ' || c = Char.ofNat 9 || c = Char.ofNat 10 || c = Char.ofNat 13 ||
  c = Char.ofNat 11 || c = Char.ofNat 12

/-- Strip leading and trailing whitespace, as Python `int()` does. -/
def pyStripChars (l : List Char) : List Char :=
  ((l.dropWhile isPySpace).reverse.dropWhile isPySpace).reverse

/-- Digit run accepted by Python `int()`: digits with single underscores
allowed between digits only. The flag records whether the previous character
was an underscore. -/
def pyDigitsAux : Bool → Nat → List Char → Option Nat
  | false, acc, [] => some acc
  | true, _, [] => none
  | lastWasU, acc, c :: rest =>
    if c.isDigit then pyDigitsAux false (10 * acc + (c.toNat - 48)) rest
    else if c = '_' then
      if lastWasU then none else pyDigitsAux true acc rest
    else none

/-- Parse a nonempty digit run (the part of a Python integer literal after
any sign); the first character must be a digit. -/
def pyParseDigits : List Char → Option Nat
  | [] => none
  | c :: rest => if c.isDigit then pyDigitsAux false (c.toNat - 48) rest else none

/-- Python `int(s)`: strip whitespace, optional sign, digits with optional
single underscores between digits (ASCII scope). `none` models the
`ValueError` for an invalid literal. -/
def pyInt (s : String) : Option Int :=
  match pyStripChars s.data with
  | '+' :: rest => (pyParseDigits rest).map Int.ofNat
  | '-' :: rest => (pyParseDigits rest).map (fun n => -(Int.ofNat n))
  | l => (pyParseDigits l).map Int.ofNat

/-- Python `str.split(sep)` on character lists, accumulator style: `acc` holds
the current piece reversed. -/
def splitOnCharAux (sep : Char) : List Char → List Char → List (List Char)
  | [], acc => [acc.reverse]
  | c :: rest, acc =>
    if c = sep then acc.reverse :: splitOnCharAux sep rest []
    else splitOnCharAux sep rest (c :: acc)

/-- Python `str.split(sep)` for a one-character separator. -/
def pySplit (s : String) (sep : Char) : List String :=
  (splitOnCharAux sep s.data []).map String.mk

/-- A ZIP archive modelled as an association list from entry names to bytes
(the external Container Access capability). -/
def Archive := List (String × List Nat)

/-- `ZipFile.read(name)` / `ZipFile.open(name)`: entry bytes, or `KeyError`. -/
def archive_read (ar : Archive) (n : String) : Except PyErr (List Nat) :=
  match List.lookup n ar with
  | some b => .ok b
  | none => .error (.keyError n)

/-- `ZipFile.read(f_name.text)` where the XML text may be `None`: `zipfile`
raises `KeyError` for the absent `None` entry name. -/
def archive_read_opt (ar : Archive) (n : Option String) : Except PyErr (List Nat) :=
  match n with
  | some s => archive_read ar s
  | none => .error (.keyError "None")

/-- Python dict assignment `d[k] = v`: last write wins. The model keeps one
binding per key; `List.lookup` reads the latest binding. -/
def pyDictInsert [BEq κ] (d : List (κ × ν)) (k : κ) (v : ν) : List (κ × ν) :=
  (k, v) :: d.filter (fun p => !(p.1 == k))

/-- `prefix_len = 3 + 6 * 4` from `_decode_binary_data` (the magic 27-byte
offset preceding the float payload). -/
def prefix_len : Nat := 3 + 6 * 4

/-- `float_len = 4` from `_decode_binary_data`. -/
def float_len : Nat := 4

/-- `_decode_binary_data(buf)`: computes `buf_end = prefix_len % float_len -
float_len` (which is `-1`), slices `buf[:buf_end]`, and calls
`np.frombuffer(..., dtype = little-endian f4, offset = prefix_len)`. -/
def decode_binary_data (buf : List Nat) : Except PyErr (List (List Nat)) :=
  let buf_end : Int := Int.ofNat (prefix_len % float_len) - Int.ofNat float_len
  let b := pySliceUpto buf buf_end
  if b.length < prefix_len then
    .error (.valueError "offset must be non-negative and no greater than buffer length")
  else if (b.length - prefix_len) % float_len ≠ 0 then
    .error (.valueError "buffer size must be a multiple of element size")
  else
    .ok (chunksOf4 (b.drop prefix_len))

/-- The 4-byte ZIP end-of-central-directory marker, bytes 80 75 5 6 (PK 05 06). -/
def eocd_marker : List Nat := [80, 75, 5, 6]

/-- `True` when `eocd_marker` occurs in `buf` starting at index `i`. -/
def matchAt (buf : List Nat) (i : Nat) : Bool :=
  (buf.drop i).take 4 == eocd_marker

/-- Scan indices `n, n-1, ..., 0` for the last occurrence of the marker. -/
def rfindAux (buf : List Nat) : Nat → Option Nat
  | 0 => if matchAt buf 0 then some 0 else none
  | n + 1 => if matchAt buf (n + 1) then some (n + 1) else rfindAux buf n

/-- `buf.rindex` of the marker, without the raise: the greatest index at which
the marker occurs, if any. -/
def rfindMarker (buf : List Nat) : Option Nat := rfindAux buf buf.length

/-- `_get_padding_start(buf)`: `rindex` of the marker (a `ValueError` when the
marker is absent) plus the fixed 22-byte end-of-central-directory length. -/
def get_padding_start (buf : List Nat) : Except PyErr Nat :=
  match rfindMarker buf with
  | some eocd_start => .ok (eocd_start + 22)
  | none => .error (.valueError "substring not found")

/-- An XML element as consumed by the code: only its text content is read. -/
structure XmlElem where
  text : Option String
  deriving DecidableEq

/-- One `Event` child of an `EventCurve`, after the external XML layer: the
code reads `float` of the EventVolume text and the EventText text.
The parsed volume is kept abstract as an `Int` (its numeric interpretation is
never used by the code under verification). -/
structure EventElem where
  eventVolume : Int
  eventText : String
  deriving DecidableEq

/-- One `EventCurve` element: its `EventCurveType` attribute (`ec.get` yields
`None` when absent) and its `Event` children in document order. -/
structure EventCurveElem where
  eventCurveType : Option String
  events : List EventElem
  deriving DecidableEq

/-- One `Curve` element: its `BinaryCurvePointsFileName` descendants (in
document order, as iterated by `curve.iter`), and `find` over child tags
(used for the unit elements and for `Name`). -/
structure CurveElem where
  binaryFileNameElems : List XmlElem
  findElem : String → Option XmlElem

/-- The parsed metadata document: the `EventCurve` and `Curve` elements in
document order (the external Metadata Document capability). -/
structure Doc where
  eventCurves : List EventCurveElem
  curves : List CurveElem

/-- The value `nice` built in `_get_events` from one list of `(volume, text)`
pairs: `tuple(list(r) for r in zip(*events))` is the empty tuple for an empty
event list, and the pair (volumes list, texts list) otherwise. -/
inductive NiceVal where
  | emptyTuple : NiceVal
  | twoLists (volumes : List Int) (texts : List String) : NiceVal
  deriving DecidableEq

/-- `tuple(list(r) for r in zip(*events))` in `_get_events`. -/
def assembleNice (es : List EventElem) : NiceVal :=
  match es with
  | [] => .emptyTuple
  | _ => .twoLists (es.map EventElem.eventVolume) (es.map EventElem.eventText)

/-- Loop of `_get_events` over the `EventCurve` elements, carrying the
`event_per_type` dict. Per iteration: the pair lists are assembled, then
the first axis is compared against the volume axis name (an `IndexError` on an empty order;
reading `self._do[0]` only happens inside the loop), and when it holds the
line `nice = reverse(nice)` raises `NameError`, because no name `reverse`
is defined anywhere in the program. -/
def get_events_aux (data_order : List String) :
    List EventCurveElem → List (Option String × NiceVal) →
    Except PyErr (List (Option String × NiceVal))
  | [], acc => .ok acc
  | ec :: rest, acc =>
    let nice := assembleNice ec.events
    match data_order.head? with
    | none => .error .indexError
    | some d0 =>
      if d0 ≠ "volume" then .error (.nameError "reverse")
      else get_events_aux data_order rest (pyDictInsert acc ec.eventCurveType nice)

/-- `_get_events(xml_root)`. -/
def get_events (data_order : List String) (eventCurves : List EventCurveElem) :
    Except PyErr (List (Option String × NiceVal)) :=
  get_events_aux data_order eventCurves []

/-- The error-free unfolding of the `_get_events` loop for a volume-first
order: successive dict inserts. -/
def foldInserts : List EventCurveElem → List (Option String × NiceVal) →
    List (Option String × NiceVal)
  | [], acc => acc
  | ec :: rest, acc =>
    foldInserts rest (pyDictInsert acc ec.eventCurveType (assembleNice ec.events))

/-- Whether some `EventCurve` in the document carries the given
`EventCurveType` attribute value. -/
def hasEventType (cs : List EventCurveElem) (t : String) : Bool :=
  cs.any (fun c => c.eventCurveType == some t)

/-- The `better_names` renaming table of `_correct_curve_name`. -/
def better_names : List (String × String) := [
  ("Cond", "Conductance"),
  ("% Cond", "Conductance (%)"),
  ("Conc B", "Concentration B"),
  ("PreC pressure", "Pre-column pressure"),
  ("Cond temp", "Conductance temperature")]

/-- `_correct_curve_name(n)`: when `n` starts with `UV` and contains an
underscore, `nice, wl = n.split('_')` unpacks the split (a `ValueError` when
the split has more than two parts) and `int(wl)` parses the wavelength (a
`ValueError` on an invalid literal); otherwise the name goes through the
`better_names` table, defaulting to itself, with no wavelength. -/
def correct_curve_name (n : String) : Except PyErr (String × Option Int) :=
  if pyStartsWith n "UV" = true ∧ '_' ∈ n.data then
    match pySplit n '_' with
    | [nice, wl] =>
      match pyInt wl with
      | some v => .ok (nice, some v)
      | none => .error (.invalidIntLiteral wl)
    | _ => .error .unpackMismatch
  else
    .ok ((List.lookup n better_names).getD n, none)

/-- `unit_full_names` in `_get_ro_units`: the capitalized axis name followed by `Unit` for each
axis name of the configured order, in order. -/
def unit_full_names (data_order : List String) : List String :=
  data_order.map (fun n => pyCapitalize n ++ "Unit")

/-- `_get_ro_units(ro_xml)`: the text of `ro_xml.find(fn)` for each unit tag
name; `find` yielding `None` makes the `.text` access raise
`AttributeError`. (The source builds this lazily as a generator; the
generator enumerates exactly these values in this order when consumed, so it
is modelled by the list of its elements.) -/
def get_ro_units (data_order : List String) (find : String → Option XmlElem) :
    Except PyErr (List (Option String)) :=
  listMapE (fun fn =>
    match find fn with
    | some el => .ok el.text
    | none => .error .attributeError) (unit_full_names data_order)

/-- `dim_f_names` in `_decode_ro_buf`: `CoordinateData.<Axis>s` for each axis
of the configured order, in order. -/
def dim_f_names (data_order : List String) : List String :=
  data_order.map (fun d => "CoordinateData." ++ pyCapitalize d ++ "s")

/-- `_decode_ro_buf(buf)`: trim the buffer at the detected padding start,
reopen the trimmed bytes as a nested archive (`openZip` models
`ZipFile(BytesIO(...))`, an external capability), and decode the entry for
each configured axis name. -/
def decode_ro_buf (openZip : List Nat → Except PyErr Archive)
    (data_order : List String) (buf : List Nat) :
    Except PyErr (List (List (List Nat))) :=
  match get_padding_start buf with
  | .error e => .error e
  | .ok stop =>
    match openZip (buf.take stop) with
    | .error e => .error e
    | .ok ar =>
      listMapE (fun n =>
        match archive_read ar n with
        | .error e => .error e
        | .ok b => decode_binary_data b) (dim_f_names data_order)

/-- The `_ReadOut` record: measurements per axis (lists of 4-byte float
groups), unit texts per axis, and the optional wavelength. -/
structure ReadOut where
  measurements : List (List (List Nat))
  units : List (Option String)
  wavelength : Option Int
  deriving DecidableEq

/-- One iteration of the `_get_ro` loop, in source order: unpack the single
`BinaryCurvePointsFileName` element (a `ValueError` unless exactly one
exists), read and decode its archive entry, resolve the units, then resolve
the display name and wavelength from the text of the `Name` child (an
`AttributeError` when `find` yields `None`, or when the text is `None` and
`_correct_curve_name` calls `.startswith` on it). -/
def get_ro_one (openZip : List Nat → Except PyErr Archive)
    (data_order : List String) (ar : Archive) (curve : CurveElem) :
    Except PyErr (String × ReadOut) :=
  match curve.binaryFileNameElems with
  | [fnElem] =>
    match archive_read_opt ar fnElem.text with
    | .error e => .error e
    | .ok buf =>
      match decode_ro_buf openZip data_order buf with
      | .error e => .error e
      | .ok meas =>
        match get_ro_units data_order curve.findElem with
        | .error e => .error e
        | .ok units =>
          match curve.findElem "Name" with
          | none => .error .attributeError
          | some cn =>
            match cn.text with
            | none => .error .attributeError
            | some nm =>
              match correct_curve_name nm with
              | .error e => .error e
              | .ok (dispName, wl) => .ok (dispName, ⟨meas, units, wl⟩)
  | _ => .error (.valueError "expected exactly one BinaryCurvePointsFileName")

/-- `_get_ro(archive, xml_root)`: one `_ReadOut` per `Curve` element, stored
under its display name, last write winning. -/
def get_ro (openZip : List Nat → Except PyErr Archive)
    (data_order : List String) (ar : Archive) :
    List CurveElem → List (String × ReadOut) →
    Except PyErr (List (String × ReadOut))
  | [], acc => .ok acc
  | c :: rest, acc =>
    match get_ro_one openZip data_order ar c with
    | .error e => .error e
    | .ok (n, ro) => get_ro openZip data_order ar rest (pyDictInsert acc n ro)

/-- The three event attributes of the export object after the `try` block of
`_load_data`; `none` means the attribute was never assigned and keeps the
class-level default (an empty list). -/
structure LoadedEvents where
  fractions : Option NiceVal
  injections : Option NiceVal
  messages : Option NiceVal
  deriving DecidableEq

/-- The `try`/`except KeyError` block of `_load_data`: the three assignments
run in order and stop at the first missing key, so every assignment after
the first missing event type is skipped even under the permissive policy;
under the strict policy the first missing type is reported. -/
def assignEvents (events : List (Option String × NiceVal))
    (ignore_missing_data : Bool) : Except PyErr LoadedEvents :=
  match List.lookup (some "Fraction") events with
  | none =>
    if ignore_missing_data then .ok ⟨none, none, none⟩
    else .error (.missingEventType "Fraction")
  | some f =>
    match List.lookup (some "Injection") events with
    | none =>
      if ignore_missing_data then .ok ⟨some f, none, none⟩
      else .error (.missingEventType "Injection")
    | some i =>
      match List.lookup (some "Logbook") events with
      | none =>
        if ignore_missing_data then .ok ⟨some f, some i, none⟩
        else .error (.missingEventType "Logbook")
      | some l => .ok ⟨some f, some i, some l⟩

/-- The assembled export object: the three event attributes and the read-out
dict. -/
structure ExportResult where
  fractions : Option NiceVal
  injections : Option NiceVal
  messages : Option NiceVal
  readout : List (String × ReadOut)
  deriving DecidableEq

/-- `_load_data(f_name, ignore_missing_data)`: require the `Chrom.1.Xml`
entry (a `KeyError` when absent, before anything else), parse it (`parse`
models `xml.etree.ElementTree.parse`, an external capability), run the event
extractor and the `try` block, then build the read-out dict. -/
def load_data (parse : List Nat → Except PyErr Doc)
    (openZip : List Nat → Except PyErr Archive)
    (data_order : List String) (ignore_missing_data : Bool) (ar : Archive) :
    Except PyErr ExportResult :=
  match archive_read ar "Chrom.1.Xml" with
  | .error e => .error e
  | .ok mtd =>
    match parse mtd with
    | .error e => .error e
    | .ok root =>
      match get_events data_order root.eventCurves with
      | .error e => .error e
      | .ok events =>
        match assignEvents events ignore_missing_data with
        | .error e => .error e
        | .ok le =>
          match get_ro openZip data_order ar root.curves [] with
          | .error e => .error e
          | .ok ros => .ok ⟨le.fractions, le.injections, le.messages, ros⟩

/-- The `data_order` validation in `__init__`: membership of both axis names
(membership tests for volume and for amplitude, conjoined), nothing more. -/
def init_check (data_order : List String) : Except PyErr (List String) :=
  if data_order.contains "volume" && data_order.contains "amplitude" then
    .ok data_order
  else .error (.valueError "invalid data order")

/-- The `UNICORNZipExport` constructor: validate the order, then load. -/
def unicorn_zip_export (parse : List Nat → Except PyErr Doc)
    (openZip : List Nat → Except PyErr Archive) (ar : Archive)
    (data_order : List String) (ignore_missing_data : Bool) :
    Except PyErr ExportResult :=
  match init_check data_order with
  | .error e => .error e
  | .ok d => load_data parse openZip d ignore_missing_data ar

/-- Spec-side predicate (from the words of the spec, for comparison with the
code): an assembled event value "consists of exactly two parallel ordered
sequences (volumes and texts) of equal length". -/
def specTwoParallelSeqs : NiceVal → Bool
  | .twoLists v t => v.length == t.length
  | .emptyTuple => false

/-- Spec-side predicate (from the words of the spec, for comparison with the
code): an axis order that "is exactly the set of Volume and Amplitude (one of
each, no duplicates, nothing else)". -/
def specExactAxisPair (data_order : List String) : Bool :=
  data_order == ["volume", "amplitude"] || data_order == ["amplitude", "volume"]

theorem pySliceUpto_neg1_length (buf : List Nat) :
    (pySliceUpto buf (-1)).length = buf.length - 1 := by
  simp only [pySliceUpto]
  rw [if_pos (show (-1 : Int) < 0 by norm_num)]
  rw [List.length_take]
  simp only [Int.ofNat_eq_natCast]
  omega

theorem pySliceUpto_append_last (xs : List Nat) (x : Nat) :
    pySliceUpto (xs ++ [x]) (-1) = xs := by
  simp only [pySliceUpto]
  rw [if_pos (show (-1 : Int) < 0 by norm_num)]
  have h : (Int.ofNat (xs ++ [x]).length + (-1)).toNat = xs.length := by
    simp only [List.length_append, List.length_singleton, Int.ofNat_eq_natCast]
    omega
  rw [h]
  exact List.take_left xs [x]

theorem chunksOf4_spec : ∀ (k : Nat) (l : List Nat), l.length = 4 * k →
    (chunksOf4 l).length = k ∧ (chunksOf4 l).flatten = l := by
  intro k
  induction k with
  | zero =>
    intro l hl
    have : l = [] := List.length_eq_zero.mp (by omega)
    subst this
    exact ⟨rfl, rfl⟩
  | succ n ih =>
    intro l hl
    cases l with
    | nil => simp at hl
    | cons a l1 =>
      cases l1 with
      | nil => simp at hl; omega
      | cons b l2 =>
        cases l2 with
        | nil => simp at hl; omega
        | cons c l3 =>
          cases l3 with
          | nil => simp at hl; omega
          | cons d rest =>
            have hr : rest.length = 4 * n := by
              simp only [List.length_cons] at hl
              omega
            obtain ⟨h1, h2⟩ := ih rest hr
            refine ⟨?_, ?_⟩
            · simp [chunksOf4, h1]
            · simp [chunksOf4, h2]

/-- Characterization of `_decode_binary_data`: the computed `buf_end` is `-1`,
so the function always drops the final byte of the buffer before handing the
result to `np.frombuffer` with offset 27. -/
theorem decode_binary_data_eq (buf : List Nat) :
    decode_binary_data buf =
      if (pySliceUpto buf (-1)).length < 27 then
        .error (.valueError "offset must be non-negative and no greater than buffer length")
      else if ((pySliceUpto buf (-1)).length - 27) % 4 ≠ 0 then
        .error (.valueError "buffer size must be a multiple of element size")
      else .ok (chunksOf4 ((pySliceUpto buf (-1)).drop 27)) := by
  unfold decode_binary_data prefix_len float_len
  norm_num

/-- C1: the float-decoding step of `_decode_binary_data`, corrected. The code
slices off the final byte of the buffer (`buf_end = 27 % 4 - 4 = -1`) before
applying the 27-byte offset, so a buffer of length `27 + 4k + 1` decodes to
exactly `k` four-byte little-endian float patterns equal to the bytes after
the prefix (the final byte being dropped); every buffer whose length is below
28 or not a multiple of 4 (in particular the lengths `27 + 4k`,
`27 + 4k + 2`, `27 + 4k + 3` of the claim) makes `np.frombuffer` raise a
`ValueError` instead of yielding floats. -/
theorem c1_float_decoding (k : Nat) (pre mid : List Nat) (lastByte : Nat)
    (buf2 : List Nat) (hp : pre.length = prefix_len) (hm : mid.length = 4 * k)
    (h2 : buf2.length < 28 ∨ buf2.length % 4 ≠ 0) :
    decode_binary_data (pre ++ mid ++ [lastByte]) = .ok (chunksOf4 mid) ∧
    (chunksOf4 mid).length = k ∧
    (chunksOf4 mid).flatten = mid ∧
    ∃ e, decode_binary_data (buf2) = .error e := by
  have hp27 : pre.length = 27 := hp
  obtain ⟨hlen, hjoin⟩ := chunksOf4_spec k mid hm
  have hslice : pySliceUpto (pre ++ (mid ++ [lastByte])) (-1) = pre ++ mid := by
    rw [← List.append_assoc]
    exact pySliceUpto_append_last (pre ++ mid) lastByte
  have hplen : (pre ++ mid).length = 27 + 4 * k := by
    simp [List.length_append, hp27, hm]
  refine ⟨?_, hlen, hjoin, ?_⟩
  · rw [List.append_assoc, decode_binary_data_eq]
    rw [hslice]
    rw [if_neg (by omega), if_neg (by omega)]
    rw [show (27 : Nat) = pre.length from hp27.symm, List.drop_left]
  · have hl2 : (pySliceUpto buf2 (-1)).length = buf2.length - 1 :=
      pySliceUpto_neg1_length buf2
    rw [decode_binary_data_eq]
    split
    · exact ⟨_, rfl⟩
    · split
      · exact ⟨_, rfl⟩
      · exfalso
        next hc1 hc2 =>
          rw [hl2] at hc1 hc2
          omega

theorem c1_witness :
    decode_binary_data (List.replicate 27 0 ++ [1, 2, 3, 4] ++ [9]) =
      .ok (chunksOf4 [1, 2, 3, 4]) ∧
    (chunksOf4 [1, 2, 3, 4]).length = 1 ∧
    (chunksOf4 [1, 2, 3, 4]).flatten = [1, 2, 3, 4] ∧
    ∃ e, decode_binary_data [0] = .error e :=
  c1_float_decoding 1 (List.replicate 27 0) [1, 2, 3, 4] 9 [0]
    (by decide) (by decide) (by decide)

/-- C1 counterexample: a buffer of length exactly `27 + 4k` with `k = 0`, for
which the claim promises zero decoded floats without error, actually raises:
after the final byte is dropped only 26 bytes remain, less than the 27-byte
offset. -/
theorem c1_counterexample :
    (List.replicate 27 (0 : Nat)).length = 27 + 4 * 0 ∧
    decode_binary_data (List.replicate 27 0) =
      .error (.valueError "offset must be non-negative and no greater than buffer length") := by
  constructor
  · decide
  · decide

theorem matchAt_length_le (buf : List Nat) (i : Nat) (h : matchAt buf i = true) :
    i + 4 ≤ buf.length := by
  unfold matchAt at h
  have hlen : ((buf.drop i).take 4).length = 4 := by
    rw [eq_of_beq h]
    rfl
  rw [List.length_take, List.length_drop] at hlen
  omega

theorem matchAt_false_of_ge (buf : List Nat) (i : Nat) (h : buf.length ≤ i + 3) :
    matchAt buf i = false := by
  by_contra hc
  have := matchAt_length_le buf i (by simpa using hc)
  omega

theorem rfindAux_none (buf : List Nat) (n : Nat)
    (h : ∀ i, i ≤ n → matchAt buf i = false) : rfindAux buf n = none := by
  induction n with
  | zero => simp [rfindAux, h 0 (Nat.le_refl 0)]
  | succ m ih =>
    simp only [rfindAux, h (m + 1) (Nat.le_refl _), Bool.false_eq_true, if_false]
    exact ih (fun i hi => h i (by omega))

theorem rfindAux_last (buf : List Nat) (p : Nat) (hp : matchAt buf p = true)
    (hgt : ∀ i, p < i → matchAt buf i = false) :
    ∀ n, p ≤ n → rfindAux buf n = some p := by
  intro n
  induction n with
  | zero =>
    intro hpn
    have : p = 0 := Nat.le_zero.mp hpn
    subst this
    simp [rfindAux, hp]
  | succ m ih =>
    intro hpn
    by_cases hc : p = m + 1
    · subst hc
      simp [rfindAux, hp]
    · have hfalse : matchAt buf (m + 1) = false := hgt (m + 1) (by omega)
      simp only [rfindAux, hfalse, Bool.false_eq_true, if_false]
      exact ih (by omega)

/-- C4: boundary detection. For a buffer made of an embedded container (whose
last marker occurrence starts its 22-byte end-of-central-directory trailer)
followed by arbitrary padding containing no later marker occurrence,
`_get_padding_start` returns exactly the embedded container length, for every
padding length and content; and on any buffer with no marker occurrence at
all it raises the `ValueError` of `rindex`. -/
theorem c4_boundary_detection (zipBytes pad : List Nat)
    (h22 : 22 ≤ zipBytes.length)
    (hmark : matchAt (zipBytes ++ pad) (zipBytes.length - 22) = true)
    (hlast : ∀ i, i < (zipBytes ++ pad).length → zipBytes.length - 22 < i →
      matchAt (zipBytes ++ pad) i = false) :
    get_padding_start (zipBytes ++ pad) = .ok zipBytes.length ∧
    ∀ buf : List Nat, (∀ i, i < buf.length → matchAt buf i = false) →
      get_padding_start buf = .error (.valueError "substring not found") := by
  constructor
  · unfold get_padding_start rfindMarker
    have hfind : rfindAux (zipBytes ++ pad) (zipBytes ++ pad).length =
        some (zipBytes.length - 22) := by
      apply rfindAux_last (zipBytes ++ pad) (zipBytes.length - 22) hmark
      · intro i hi
        by_cases hin : i < (zipBytes ++ pad).length
        · exact hlast i hin hi
        · exact matchAt_false_of_ge _ i (by omega)
      · rw [List.length_append]
        omega
    rw [hfind]
    show Except.ok (zipBytes.length - 22 + 22) = Except.ok zipBytes.length
    have : zipBytes.length - 22 + 22 = zipBytes.length := by omega
    rw [this]
  · intro buf hnone
    unfold get_padding_start rfindMarker
    have hfind : rfindAux buf buf.length = none := by
      apply rfindAux_none
      intro i hi
      by_cases hin : i < buf.length
      · exact hnone i hin
      · exact matchAt_false_of_ge _ i (by omega)
    rw [hfind]

theorem c4_witness :
    get_padding_start (([80, 75, 5, 6] ++ List.replicate 18 0) ++ [1, 2, 3]) = .ok 22 :=
  (c4_boundary_detection ([80, 75, 5, 6] ++ List.replicate 18 0) [1, 2, 3]
    (by decide) (by decide) (by decide)).1

/-- C5: the constructor validation, corrected. `__init__` only checks that
both axis names are members of `data_order`; it does not reject duplicates or
extra elements, so the acceptance condition is exactly joint membership (in
particular every order that is exactly the pair of Volume and Amplitude is
accepted), and any rejected order fails with the `invalid data order`
`ValueError` before any archive access, uniformly in the archive and in the
external capabilities. -/
theorem c5_axis_order_validation (d : List String) :
    (init_check d = .ok d ↔
      (d.contains "volume" = true ∧ d.contains "amplitude" = true)) ∧
    (specExactAxisPair d = true → init_check d = .ok d) ∧
    (init_check d ≠ .ok d →
      ∀ parse openZip ar ignore,
        unicorn_zip_export parse openZip ar d ignore =
          .error (.valueError "invalid data order")) := by
  have hchar : init_check d = .ok d ↔
      (d.contains "volume" = true ∧ d.contains "amplitude" = true) := by
    unfold init_check
    split
    next hb =>
      rw [Bool.and_eq_true] at hb
      exact iff_of_true rfl hb
    next hb =>
      rw [Bool.and_eq_true] at hb
      exact iff_of_false (by simp) hb
  refine ⟨hchar, ?_, ?_⟩
  · intro hpair
    apply hchar.mpr
    unfold specExactAxisPair at hpair
    rw [Bool.or_eq_true] at hpair
    rcases hpair with h | h
    · rw [eq_of_beq h]
      exact ⟨by decide, by decide⟩
    · rw [eq_of_beq h]
      exact ⟨by decide, by decide⟩
  · intro hrej parse openZip ar ignore
    have herr : init_check d = .error (.valueError "invalid data order") := by
      by_cases hb : (d.contains "volume" && d.contains "amplitude") = true
      · exact absurd (by unfold init_check; rw [if_pos hb]) hrej
      · unfold init_check
        rw [if_neg hb]
    unfold unicorn_zip_export
    rw [herr]

theorem c5_witness : init_check ["amplitude", "volume"] = .ok ["amplitude", "volume"] :=
  (c5_axis_order_validation ["amplitude", "volume"]).2.1 (by decide)

/-- C5 counterexample: the order `["volume", "amplitude", "volume"]` is not
exactly the set of the two axes (it has a duplicate), yet construction
accepts it, contradicting the claim that every such order fails with
`InvalidConfig`. -/
theorem c5_counterexample :
    init_check ["volume", "amplitude", "volume"] =
      .ok ["volume", "amplitude", "volume"] ∧
    specExactAxisPair ["volume", "amplitude", "volume"] = false := by
  constructor
  · decide
  · decide

/-- C2: evidence for the code bug. Whenever the configured order does not put
`volume` first and the document holds at least one `EventCurve`, the event
extractor evaluates the line `nice = reverse(nice)` and raises `NameError`,
because no name `reverse` is defined anywhere in the program (Python has only
`reversed`); the documented behavior of reversing the pairing never runs. -/
theorem c2_reverse_name_error (c : EventCurveElem) (cs : List EventCurveElem)
    (rest : List String) :
    get_events ("amplitude" :: rest) (c :: cs) = .error (.nameError "reverse") := rfl

/-- C7: event-pair assembly, corrected. For every `EventCurve` with at least
one `Event` child the assembled value is the two parallel lists of volumes
and texts, of equal length, one element per `Event` child in document order,
and `_get_events` stores exactly that value under the curve type; but for an
`EventCurve` with zero `Event` children the assembled value is the empty
tuple produced by `zip(*[])`, not a pair of sequences. -/
theorem c7_event_assembly (es : List EventElem) (t : Option String)
    (rest : List String) (h : es ≠ []) :
    assembleNice es =
      NiceVal.twoLists (es.map EventElem.eventVolume) (es.map EventElem.eventText) ∧
    (es.map EventElem.eventVolume).length = es.length ∧
    (es.map EventElem.eventText).length = es.length ∧
    get_events ("volume" :: rest) [⟨t, es⟩] = .ok [(t, assembleNice es)] ∧
    assembleNice ([] : List EventElem) = NiceVal.emptyTuple := by
  refine ⟨?_, by simp, by simp, ?_, rfl⟩
  · cases es with
    | nil => exact absurd rfl h
    | cons a l => rfl
  · rfl

theorem c7_witness :
    assembleNice [⟨1, "a"⟩] = NiceVal.twoLists [1] ["a"] ∧
    ([1] : List Int).length = 1 ∧
    (["a"] : List String).length = 1 ∧
    get_events ["volume", "amplitude"] [⟨some "Fraction", [⟨1, "a"⟩]⟩] =
      .ok [(some "Fraction", assembleNice [⟨1, "a"⟩])] ∧
    assembleNice ([] : List EventElem) = NiceVal.emptyTuple :=
  c7_event_assembly [⟨1, "a"⟩] (some "Fraction") ["amplitude"] (by decide)

/-- C7 counterexample: an `EventCurve` with zero `Event` children. The value
assembled and stored by `_get_events` is the empty tuple, which does not
consist of two parallel sequences, contradicting the claim for the
zero-children case it explicitly includes. -/
theorem c7_counterexample :
    get_events ["volume", "amplitude"] [⟨some "Fraction", []⟩] =
      .ok [(some "Fraction", NiceVal.emptyTuple)] ∧
    specTwoParallelSeqs NiceVal.emptyTuple = false := by
  constructor
  · decide
  · decide

/-- C9: a container lacking the `Chrom.1.Xml` entry always fails with the
missing-entry error, before anything else runs: the result is the `KeyError`
of `ZipFile.open`, for both policies and uniformly in every external
capability and axis order. -/
theorem c9_metadata_entry_required (parse : List Nat → Except PyErr Doc)
    (openZip : List Nat → Except PyErr Archive) (data_order : List String)
    (ignore_missing_data : Bool) (ar : Archive)
    (h : List.lookup "Chrom.1.Xml" ar = none) :
    load_data parse openZip data_order ignore_missing_data ar =
      .error (.keyError "Chrom.1.Xml") := by
  unfold load_data archive_read
  rw [h]

theorem c9_witness :
    load_data (fun _ => Except.error PyErr.attributeError)
        (fun _ => Except.error PyErr.attributeError) ["volume", "amplitude"] false
        ([] : Archive) =
      .error (.keyError "Chrom.1.Xml") ∧
    load_data (fun _ => Except.error PyErr.attributeError)
        (fun _ => Except.error PyErr.attributeError) ["volume", "amplitude"] true
        ([] : Archive) =
      .error (.keyError "Chrom.1.Xml") :=
  ⟨c9_metadata_entry_required _ _ _ _ ([] : Archive) rfl,
   c9_metadata_entry_required _ _ _ _ ([] : Archive) rfl⟩

/-- C8: measurement length mismatch, corrected. `_decode_ro_buf` performs no
comparison between the two decoded sequences: whenever the boundary is found,
the nested archive opens, and both per-axis entries decode, the result is the
two sequences exactly as decoded, with no constraint relating their lengths —
a mismatch is returned silently rather than surfaced. -/
theorem c8_no_length_check (openZip : List Nat → Except PyErr Archive)
    (buf : List Nat) (stop : Nat) (ar2 : Archive) (bs1 bs2 : List Nat)
    (r1 r2 : List (List Nat))
    (h0 : get_padding_start buf = .ok stop)
    (h1 : openZip (buf.take stop) = .ok ar2)
    (h2 : List.lookup "CoordinateData.Volumes" ar2 = some bs1)
    (h3 : List.lookup "CoordinateData.Amplitudes" ar2 = some bs2)
    (h4 : decode_binary_data bs1 = .ok r1)
    (h5 : decode_binary_data bs2 = .ok r2) :
    decode_ro_buf openZip ["volume", "amplitude"] buf = .ok [r1, r2] := by
  have e1 : ("CoordinateData." ++ pyCapitalize "volume" ++ "s") = "CoordinateData.Volumes" := by
    decide
  have e2 : ("CoordinateData." ++ pyCapitalize "amplitude" ++ "s") = "CoordinateData.Amplitudes" := by
    decide
  unfold decode_ro_buf
  simp only [h0, h1, dim_f_names, List.map_cons, List.map_nil, listMapE, archive_read,
    e1, e2, h2, h3, h4, h5]

theorem c8_witness :
    decode_ro_buf
        (fun _ => Except.ok ([("CoordinateData.Volumes", List.replicate 27 0 ++ [1, 2, 3, 4, 9]),
          ("CoordinateData.Amplitudes", List.replicate 28 0)] : Archive))
        ["volume", "amplitude"] ([80, 75, 5, 6] ++ List.replicate 18 0) =
      .ok [[[1, 2, 3, 4]], []] :=
  c8_no_length_check _ _ 22 _ _ _ [[1, 2, 3, 4]] [] rfl rfl rfl rfl (by decide) (by decide)

/-- C8 counterexample: a curve whose `Volumes` entry decodes to one float and
whose `Amplitudes` entry decodes to zero floats. The code returns both
sequences inside a successful result instead of surfacing the length
mismatch as a failure, contradicting the claim. -/
theorem c8_counterexample :
    decode_ro_buf
        (fun _ => Except.ok ([("CoordinateData.Volumes", List.replicate 27 0 ++ [1, 2, 3, 4, 9]),
          ("CoordinateData.Amplitudes", List.replicate 28 0)] : Archive))
        ["volume", "amplitude"] ([80, 75, 5, 6] ++ List.replicate 18 0) =
      .ok [[[1, 2, 3, 4]], []] ∧
    ([[1, 2, 3, 4]] : List (List Nat)).length ≠ ([] : List (List Nat)).length := by
  constructor
  · decide
  · decide

theorem lookup_filter_ne {κ ν : Type} [BEq κ] [LawfulBEq κ] (d : List (κ × ν))
    (k k' : κ) (h : k' ≠ k) :
    List.lookup k' (d.filter (fun p => !(p.1 == k))) = List.lookup k' d := by
  induction d with
  | nil => rfl
  | cons a rest ih =>
    obtain ⟨ak, av⟩ := a
    by_cases hak : (ak == k) = true
    · have hk : ak = k := eq_of_beq hak
      subst hk
      rw [List.filter_cons_of_neg (by simp)]
      rw [ih]
      have hne : (k' == ak) = false := beq_eq_false_iff_ne.mpr h
      simp only [List.lookup, hne]
    · rw [List.filter_cons_of_pos (by simp [hak])]
      by_cases hka : (k' == ak) = true
      · simp only [List.lookup, hka]
      · have hka' : (k' == ak) = false := by
          cases hx : (k' == ak)
          · rfl
          · exact absurd hx hka
        simp only [List.lookup, hka']
        exact ih

theorem lookup_pyDictInsert_self {κ ν : Type} [BEq κ] [LawfulBEq κ]
    (d : List (κ × ν)) (k : κ) (v : ν) :
    List.lookup k (pyDictInsert d k v) = some v := by
  simp [pyDictInsert, List.lookup]

theorem lookup_pyDictInsert_ne {κ ν : Type} [BEq κ] [LawfulBEq κ]
    (d : List (κ × ν)) (k k' : κ) (v : ν) (h : k' ≠ k) :
    List.lookup k' (pyDictInsert d k v) = List.lookup k' d := by
  have hne : (k' == k) = false := beq_eq_false_iff_ne.mpr h
  simp only [pyDictInsert, List.lookup, hne]
  exact lookup_filter_ne d k k' h

theorem get_events_aux_volume (rest : List String) :
    ∀ (cs : List EventCurveElem) (acc : List (Option String × NiceVal)),
    get_events_aux ("volume" :: rest) cs acc = .ok (foldInserts cs acc) := by
  intro cs
  induction cs with
  | nil => intro acc; rfl
  | cons c cs2 ih =>
    intro acc
    exact ih (pyDictInsert acc c.eventCurveType (assembleNice c.events))

theorem hasEventType_false_iff (cs : List EventCurveElem) (t : String) :
    hasEventType cs t = false ↔ ∀ c ∈ cs, c.eventCurveType ≠ some t := by
  rw [← Bool.not_eq_true]
  unfold hasEventType
  simp [List.any_eq_true]

theorem lookup_foldInserts_absent (t : String) :
    ∀ (cs : List EventCurveElem) (acc : List (Option String × NiceVal)),
    (∀ c ∈ cs, c.eventCurveType ≠ some t) →
    List.lookup (some t) (foldInserts cs acc) = List.lookup (some t) acc := by
  intro cs
  induction cs with
  | nil => intro acc _; rfl
  | cons c cs2 ih =>
    intro acc h
    have hc : c.eventCurveType ≠ some t := h c (List.mem_cons_self c cs2)
    show List.lookup (some t)
        (foldInserts cs2 (pyDictInsert acc c.eventCurveType (assembleNice c.events))) = _
    rw [ih _ (fun x hx => h x (List.mem_cons_of_mem _ hx))]
    exact lookup_pyDictInsert_ne _ _ _ _ (fun he => hc he.symm)

theorem lookup_foldInserts_present (t : String) :
    ∀ (cs : List EventCurveElem) (acc : List (Option String × NiceVal)),
    (hasEventType cs t = true ∨ (List.lookup (some t) acc).isSome = true) →
    (List.lookup (some t) (foldInserts cs acc)).isSome = true := by
  intro cs
  induction cs with
  | nil =>
    intro acc h
    rcases h with h | h
    · simp [hasEventType] at h
    · exact h
  | cons c cs2 ih =>
    intro acc h
    show (List.lookup (some t)
        (foldInserts cs2 (pyDictInsert acc c.eventCurveType (assembleNice c.events)))).isSome = true
    by_cases hc : c.eventCurveType = some t
    · apply ih
      right
      rw [hc, lookup_pyDictInsert_self]
      rfl
    · apply ih
      rcases h with h | h
      · left
        simp only [hasEventType, List.any_cons, Bool.or_eq_true, beq_iff_eq] at h
        rcases h with h | h
        · exact absurd h hc
        · exact h
      · right
        rw [lookup_pyDictInsert_ne _ _ _ _ (fun he => hc he.symm)]
        exact h

/-- The trunk of `_load_data` once the metadata entry is present and parsed:
everything after depends only on the parsed document. -/
theorem load_data_eq (parse : List Nat → Except PyErr Doc)
    (openZip : List Nat → Except PyErr Archive) (data_order : List String)
    (ignore_missing_data : Bool) (ar : Archive) (mtd : List Nat) (root : Doc)
    (hmtd : List.lookup "Chrom.1.Xml" ar = some mtd)
    (hparse : parse mtd = .ok root) :
    load_data parse openZip data_order ignore_missing_data ar =
      match get_events data_order root.eventCurves with
      | .error e => .error e
      | .ok events =>
        match assignEvents events ignore_missing_data with
        | .error e => .error e
        | .ok le =>
          match get_ro openZip data_order ar root.curves [] with
          | .error e => .error e
          | .ok ros => .ok ⟨le.fractions, le.injections, le.messages, ros⟩ := by
  unfold load_data archive_read
  simp only [hmtd, hparse]

/-- C3: the missing-event-type policy, corrected. With a volume-first order
(any other order crashes in the event extractor, see the C2 result), for a
document missing exactly one of the three expected event types: under the
strict policy the export fails naming the missing type, as claimed; under the
permissive policy the export succeeds, but because the three assignments of
the `try` block stop at the first missing key, only the event lists strictly
before the missing type in the fixed order Fraction, Injection, Logbook are
populated — the missing list and every later one keep their defaults, so the
other two lists are NOT both populated unless the missing type is the last
one (`Logbook`). -/
theorem c3_missing_event_policy (parse : List Nat → Except PyErr Doc)
    (openZip : List Nat → Except PyErr Archive) (rest : List String) (ar : Archive)
    (mtd : List Nat) (root : Doc) (ros : List (String × ReadOut))
    (hmtd : List.lookup "Chrom.1.Xml" ar = some mtd)
    (hparse : parse mtd = .ok root)
    (hros : get_ro openZip ("volume" :: rest) ar root.curves [] = .ok ros) :
    (hasEventType root.eventCurves "Fraction" = false →
      load_data parse openZip ("volume" :: rest) true ar = .ok ⟨none, none, none, ros⟩ ∧
      load_data parse openZip ("volume" :: rest) false ar =
        .error (.missingEventType "Fraction")) ∧
    (hasEventType root.eventCurves "Fraction" = true →
     hasEventType root.eventCurves "Injection" = false →
      (∃ f, load_data parse openZip ("volume" :: rest) true ar =
        .ok ⟨some f, none, none, ros⟩) ∧
      load_data parse openZip ("volume" :: rest) false ar =
        .error (.missingEventType "Injection")) ∧
    (hasEventType root.eventCurves "Fraction" = true →
     hasEventType root.eventCurves "Injection" = true →
     hasEventType root.eventCurves "Logbook" = false →
      (∃ f i, load_data parse openZip ("volume" :: rest) true ar =
        .ok ⟨some f, some i, none, ros⟩) ∧
      load_data parse openZip ("volume" :: rest) false ar =
        .error (.missingEventType "Logbook")) := by
  have hge : get_events ("volume" :: rest) root.eventCurves =
      .ok (foldInserts root.eventCurves []) := get_events_aux_volume rest root.eventCurves []
  have hld : ∀ ig, load_data parse openZip ("volume" :: rest) ig ar =
      match assignEvents (foldInserts root.eventCurves []) ig with
      | .error e => .error e
      | .ok le =>
        match get_ro openZip ("volume" :: rest) ar root.curves [] with
        | .error e => .error e
        | .ok ros2 => .ok ⟨le.fractions, le.injections, le.messages, ros2⟩ := by
    intro ig
    rw [load_data_eq parse openZip ("volume" :: rest) ig ar mtd root hmtd hparse]
    rw [hge]
  refine ⟨?_, ?_, ?_⟩
  · intro hF
    have hlf : List.lookup (some "Fraction") (foldInserts root.eventCurves []) = none := by
      rw [lookup_foldInserts_absent "Fraction" root.eventCurves []
        ((hasEventType_false_iff _ _).mp hF)]
      rfl
    constructor
    · rw [hld true]
      simp only [assignEvents, hlf, hros, if_true]
    · rw [hld false]
      simp only [assignEvents, hlf, Bool.false_eq_true, if_false]
  · intro hF hI
    have hsf := lookup_foldInserts_present "Fraction" root.eventCurves [] (Or.inl hF)
    obtain ⟨f, hf⟩ := Option.isSome_iff_exists.mp hsf
    have hli : List.lookup (some "Injection") (foldInserts root.eventCurves []) = none := by
      rw [lookup_foldInserts_absent "Injection" root.eventCurves []
        ((hasEventType_false_iff _ _).mp hI)]
      rfl
    constructor
    · refine ⟨f, ?_⟩
      rw [hld true]
      simp only [assignEvents, hf, hli, hros, if_true]
    · rw [hld false]
      simp only [assignEvents, hf, hli, Bool.false_eq_true, if_false]
  · intro hF hI hL
    have hsf := lookup_foldInserts_present "Fraction" root.eventCurves [] (Or.inl hF)
    obtain ⟨f, hf⟩ := Option.isSome_iff_exists.mp hsf
    have hsi := lookup_foldInserts_present "Injection" root.eventCurves [] (Or.inl hI)
    obtain ⟨i, hi⟩ := Option.isSome_iff_exists.mp hsi
    have hll : List.lookup (some "Logbook") (foldInserts root.eventCurves []) = none := by
      rw [lookup_foldInserts_absent "Logbook" root.eventCurves []
        ((hasEventType_false_iff _ _).mp hL)]
      rfl
    constructor
    · refine ⟨f, i, ?_⟩
      rw [hld true]
      simp only [assignEvents, hf, hi, hll, hros, if_true]
    · rw [hld false]
      simp only [assignEvents, hf, hi, hll, Bool.false_eq_true, if_false]

theorem c3_witness :
    load_data
        (fun _ => Except.ok (Doc.mk
          [⟨some "Injection", [⟨1, "inj"⟩]⟩, ⟨some "Logbook", [⟨2, "log"⟩]⟩] []))
        (fun _ => Except.error (PyErr.valueError "unused")) ["volume", "amplitude"] true
        ([("Chrom.1.Xml", [])] : Archive) =
      .ok ⟨none, none, none, []⟩ ∧
    load_data
        (fun _ => Except.ok (Doc.mk
          [⟨some "Injection", [⟨1, "inj"⟩]⟩, ⟨some "Logbook", [⟨2, "log"⟩]⟩] []))
        (fun _ => Except.error (PyErr.valueError "unused")) ["volume", "amplitude"] false
        ([("Chrom.1.Xml", [])] : Archive) =
      .error (.missingEventType "Fraction") :=
  (c3_missing_event_policy
    (fun _ => Except.ok (Doc.mk
      [⟨some "Injection", [⟨1, "inj"⟩]⟩, ⟨some "Logbook", [⟨2, "log"⟩]⟩] []))
    (fun _ => Except.error (PyErr.valueError "unused")) ["amplitude"]
    ([("Chrom.1.Xml", [])] : Archive) []
    (Doc.mk [⟨some "Injection", [⟨1, "inj"⟩]⟩, ⟨some "Logbook", [⟨2, "log"⟩]⟩] []) []
    rfl rfl rfl).1 (by decide)

/-- C3 counterexample: a document with `Injection` and `Logbook` event curves
but no `Fraction` curve, read under the permissive policy. The export
succeeds, but the `Injection` and `Logbook` lists are left at their defaults
(`none`, never assigned) even though both types are present in the document,
contradicting the claim that the other two event lists are populated. -/
theorem c3_counterexample :
    load_data
        (fun _ => Except.ok (Doc.mk
          [⟨some "Injection", [⟨1, "inj"⟩]⟩, ⟨some "Logbook", [⟨2, "log"⟩]⟩] []))
        (fun _ => Except.error (PyErr.valueError "unused")) ["volume", "amplitude"] true
        ([("Chrom.1.Xml", [])] : Archive) =
      .ok ⟨none, none, none, []⟩ ∧
    hasEventType [⟨some "Injection", [⟨1, "inj"⟩]⟩, ⟨some "Logbook", [⟨2, "log"⟩]⟩]
      "Injection" = true ∧
    hasEventType [⟨some "Injection", [⟨1, "inj"⟩]⟩, ⟨some "Logbook", [⟨2, "log"⟩]⟩]
      "Logbook" = true := by
  refine ⟨?_, by decide, by decide⟩
  rfl

/-- C10: units and measurements are reordered together. For every axis order
and every curve element, when the unit resolution succeeds, the unit text at
position `i` of the result is exactly the text of the `<Axis>Unit` element of
the axis at position `i` of the configured order, and the nested-archive
entry name at position `i` (which determines the measurement sequence at
position `i` of `_decode_ro_buf`) is `CoordinateData.<Axis>s` for that same
axis — both positional meanings are derived from the same list, never
independently. -/
theorem c10_units_measurements_aligned :
    ∀ (data_order : List String) (find : String → Option XmlElem)
      (res : List (Option String)),
    get_ro_units data_order find = .ok res →
    ∀ (i : Nat) (hi : i < data_order.length),
    (∃ el, find (pyCapitalize (data_order.get ⟨i, hi⟩) ++ "Unit") = some el ∧
      res.get? i = some el.text) ∧
    (dim_f_names data_order).get? i =
      some ("CoordinateData." ++ pyCapitalize (data_order.get ⟨i, hi⟩) ++ "s") := by
  intro data_order
  induction data_order with
  | nil =>
    intro find res h i hi
    exact absurd hi (by simp)
  | cons d ds ih =>
    intro find res h i hi
    unfold get_ro_units unit_full_names at h
    rw [List.map_cons] at h
    unfold listMapE at h
    cases hfd : find (pyCapitalize d ++ "Unit") with
    | none =>
      rw [hfd] at h
      exact absurd h (by simp)
    | some el =>
      rw [hfd] at h
      cases hrest : listMapE (fun fn =>
          match find fn with
          | some el => Except.ok el.text
          | none => Except.error PyErr.attributeError) (List.map (fun n => pyCapitalize n ++ "Unit") ds) with
      | error e =>
        rw [hrest] at h
        exact absurd h (by simp)
      | ok bs =>
        rw [hrest] at h
        have hres : res = el.text :: bs := by
          have := h
          simp only [Except.ok.injEq] at this
          exact this.symm
        subst hres
        cases i with
        | zero => exact ⟨⟨el, hfd, rfl⟩, rfl⟩
        | succ j =>
          have hj : j < ds.length := by
            simp only [List.length_cons] at hi
            omega
          have hih := ih find bs (by unfold get_ro_units unit_full_names; exact hrest) j hj
          exact ⟨hih.1, hih.2⟩

theorem c10_witness :
    (∃ el, List.lookup (pyCapitalize ((["volume", "amplitude"] : List String).get ⟨0, by decide⟩) ++ "Unit")
        [("VolumeUnit", XmlElem.mk (some "ml")), ("AmplitudeUnit", XmlElem.mk (some "mAU"))] = some el ∧
      ([some "ml", some "mAU"] : List (Option String)).get? 0 = some el.text) ∧
    (dim_f_names ["volume", "amplitude"]).get? 0 =
      some ("CoordinateData." ++ pyCapitalize ((["volume", "amplitude"] : List String).get ⟨0, by decide⟩) ++ "s") :=
  c10_units_measurements_aligned ["volume", "amplitude"]
    (fun fn => List.lookup fn
      [("VolumeUnit", XmlElem.mk (some "ml")), ("AmplitudeUnit", XmlElem.mk (some "mAU"))])
    [some "ml", some "mAU"] rfl 0 (by decide)

theorem splitAux_no_sep (sep : Char) :
    ∀ (l acc : List Char), sep ∉ l →
    splitOnCharAux sep l acc = [acc.reverse ++ l] := by
  intro l
  induction l with
  | nil =>
    intro acc _
    simp [splitOnCharAux]
  | cons c rest ih =>
    intro acc h
    have hc : ¬(c = sep) := fun he => h (he ▸ List.mem_cons_self c rest)
    unfold splitOnCharAux
    rw [if_neg hc]
    rw [ih (c :: acc) (fun hm => h (List.mem_cons_of_mem _ hm))]
    simp

theorem splitOnCharAux_cons (sep c : Char) (rest acc : List Char) :
    splitOnCharAux sep (c :: rest) acc =
      if c = sep then acc.reverse :: splitOnCharAux sep rest []
      else splitOnCharAux sep rest (c :: acc) := rfl

theorem splitAux_sep (sep : Char) :
    ∀ (p rest acc : List Char), sep ∉ p →
    splitOnCharAux sep (p ++ sep :: rest) acc =
      (acc.reverse ++ p) :: splitOnCharAux sep rest [] := by
  intro p
  induction p with
  | nil =>
    intro rest acc _
    rw [List.nil_append, splitOnCharAux_cons, if_pos rfl, List.append_nil]
  | cons c p2 ih =>
    intro rest acc h
    have hc : ¬(c = sep) := fun he => h (he ▸ List.mem_cons_self c p2)
    rw [List.cons_append, splitOnCharAux_cons, if_neg hc,
      ih rest (c :: acc) (fun hm => h (List.mem_cons_of_mem _ hm))]
    simp

theorem isPrefixOf_append_list (u : List Char) :
    ∀ (a b : List Char), u.isPrefixOf a = true → u.isPrefixOf (a ++ b) = true := by
  induction u with
  | nil => intro a b _; simp [List.isPrefixOf]
  | cons c cs ih =>
    intro a b h
    cases a with
    | nil => exact absurd h (by simp [List.isPrefixOf])
    | cons d ds =>
      simp only [List.cons_append, List.isPrefixOf, Bool.and_eq_true] at h ⊢
      exact ⟨h.1, ih ds b h.2⟩

theorem pyStartsWith_append (p w : String) (pre : String)
    (h : pyStartsWith p pre = true) : pyStartsWith (p ++ w) pre = true := by
  unfold pyStartsWith at h ⊢
  rw [String.data_append]
  exact isPrefixOf_append_list pre.data p.data w.data h

/-- C6: name normalization, corrected. The branch guard of
`_correct_curve_name` only requires SOME underscore, not exactly one. For a
raw name `p_s` where `p` starts with `UV` and neither part contains an
underscore, the name splits into `(p, int(s))`, failing on an invalid integer
suffix, as claimed; every name outside the guard (no `UV` start or no
underscore) goes through the renaming table or is used verbatim, as claimed;
but a name `p_s_t` with a `UV` start and two or more underscores enters the
split branch and fails on tuple unpacking instead of being used verbatim,
refuting the claimed treatment of names without exactly one underscore. -/
theorem c6_curve_name_normalization (p s : String)
    (hp : '_' ∉ p.data) (hs : '_' ∉ s.data) (huv : pyStartsWith p "UV" = true) :
    (correct_curve_name (p ++ "_" ++ s) =
      match pyInt s with
      | some v => .ok (p, some v)
      | none => .error (.invalidIntLiteral s)) ∧
    (∀ n : String, ¬(pyStartsWith n "UV" = true ∧ '_' ∈ n.data) →
      correct_curve_name n = .ok ((List.lookup n better_names).getD n, none)) ∧
    (∀ t : String, '_' ∉ t.data →
      correct_curve_name (p ++ "_" ++ s ++ "_" ++ t) = .error .unpackMismatch) := by
  have hdata : (p ++ "_" ++ s).data = p.data ++ '_' :: s.data := by
    rw [String.data_append, String.data_append]
    simp
  refine ⟨?_, ?_, ?_⟩
  · have hcond : pyStartsWith (p ++ "_" ++ s) "UV" = true := by
      rw [String.append_assoc]
      exact pyStartsWith_append p ("_" ++ s) "UV" huv
    have hmem : '_' ∈ (p ++ "_" ++ s).data := by
      rw [hdata]
      simp
    unfold correct_curve_name
    rw [if_pos ⟨hcond, hmem⟩]
    unfold pySplit
    rw [hdata, splitAux_sep '_' p.data s.data [] hp, splitAux_no_sep '_' s.data [] hs]
    simp only [List.reverse_nil, List.nil_append, List.map_cons, List.map_nil]
  · intro n hn
    unfold correct_curve_name
    rw [if_neg hn]
  · intro t ht
    have hdata3 : (p ++ "_" ++ s ++ "_" ++ t).data =
        p.data ++ '_' :: (s.data ++ '_' :: t.data) := by
      rw [String.data_append, String.data_append, String.data_append, String.data_append]
      simp
    have hcond : pyStartsWith (p ++ "_" ++ s ++ "_" ++ t) "UV" = true := by
      rw [String.append_assoc, String.append_assoc, String.append_assoc]
      exact pyStartsWith_append p ("_" ++ (s ++ ("_" ++ t))) "UV" huv
    have hmem : '_' ∈ (p ++ "_" ++ s ++ "_" ++ t).data := by
      rw [hdata3]
      simp
    unfold correct_curve_name
    rw [if_pos ⟨hcond, hmem⟩]
    unfold pySplit
    rw [hdata3, splitAux_sep '_' p.data (s.data ++ '_' :: t.data) [] hp,
      splitAux_sep '_' s.data t.data [] hs, splitAux_no_sep '_' t.data [] ht]
    simp only [List.reverse_nil, List.nil_append, List.map_cons, List.map_nil]

theorem c6_witness :
    correct_curve_name ("UV" ++ "_" ++ "280") = .ok ("UV", some 280) ∧
    correct_curve_name "Cond" = .ok ("Conductance", none) ∧
    correct_curve_name ("UV" ++ "_" ++ "280" ++ "_" ++ "7") = .error .unpackMismatch := by
  have h := c6_curve_name_normalization "UV" "280" (by decide) (by decide) (by decide)
  exact ⟨h.1, h.2.1 "Cond" (by decide), h.2.2 "7" (by decide)⟩

/-- C6 counterexample: the raw name `UV_1_2` starts with `UV` but does not
contain exactly one underscore, so by the claim it should be used verbatim as
`("UV_1_2", no wavelength)`; the code instead enters the split branch and
raises the unpack `ValueError`. -/
theorem c6_counterexample :
    correct_curve_name "UV_1_2" = .error .unpackMismatch ∧
    correct_curve_name "UV_1_2" ≠ .ok ("UV_1_2", none) ∧
    (pySplit "UV_1_2" '_').length ≠ 2 := by
  refine ⟨by decide, by decide, by decide⟩
